import Mathlib

/-!
Verification of core behaviors of the Clash.Premium traffic router:
the DNS resolver (caching, TTL handling, main/fallback racing, dual-stack
address resolution, DoH message-ID handling), the rule-matching dispatcher
with its lazy IP/process resolution, metadata preprocessing, and the UDP
NAT session table's single-creator coordination.

The Go source is shallowly embedded: pure functions become Lean functions,
time is modelled in whole seconds as `Nat`, `netip.Addr` validity becomes
`Option`, network I/O results are passed in as explicit `Except` values,
and the concurrent UDP session table becomes a labelled transition system
over an explicit state.
-/

namespace Clash

/-- A resolved IP address (`netip.Addr`).  `isV4` mirrors `Addr.Is4`;
the numeric value stands for the address bits. -/
structure IPAddr where
  isV4 : Bool
  val : Nat
deriving DecidableEq, Repr

/-- One DNS resource record, keeping the fields the embedded code reads:
its TTL (`Header().Ttl`) and, for `A`/`AAAA` answers, the carried address
(`none` for every other record type). -/
structure RR where
  ttl : Nat
  addr : Option IPAddr
deriving DecidableEq, Repr

/-- A DNS question (`dns.Question`): name, type, class.  The Go code keys
caches by `q.String()`, which is injective in these three fields, so the
question value itself serves as the cache key. -/
structure Question where
  name : String
  qtype : Nat
  qclass : Nat
deriving DecidableEq, Repr

/-- A DNS message (`dns.Msg`) restricted to the fields the embedded code
touches: header id, response code, question section and the three
record sections answer (`Answer`), authority (`Ns`), additional (`Extra`). -/
structure DnsMsg where
  id : Nat
  rcode : Nat
  question : List Question
  answer : List RR
  ns : List RR
  extra : List RR
deriving DecidableEq, Repr

/-- `setMsgTTL` (dns/util.go): rewrite the TTL of every record in the
answer, authority and additional sections. -/
def setMsgTTL (msg : DnsMsg) (ttl : Nat) : DnsMsg :=
  { msg with
    answer := msg.answer.map (fun rr => { rr with ttl := ttl }),
    ns := msg.ns.map (fun rr => { rr with ttl := ttl }),
    extra := msg.extra.map (fun rr => { rr with ttl := ttl }) }

/-- `msgToIP` (dns/util.go): collect the addresses of the `A`/`AAAA`
records of the answer section, in order. -/
def msgToIP (msg : DnsMsg) : List IPAddr :=
  msg.answer.filterMap (fun rr => rr.addr)

/-- All records of a message, used to state "every record's TTL". -/
def allRecords (msg : DnsMsg) : List RR :=
  msg.answer ++ msg.ns ++ msg.extra

/-- The resolver's LRU cache (`lruCache`), modelled as a map from the
question key to the stored message and its absolute expiry time in
seconds.  Modelled from the spec: the `common/cache` LRU implementation is
not part of the analysed sources; the spec describes it as holding, per
question, "the last response and its absolute expiry". -/
def DnsCache : Type := Question → Option (DnsMsg × Nat)

/-- `LruCache.SetWithExpire`: store a value under a key with an absolute
expiry timestamp. -/
def cacheSetWithExpire (c : DnsCache) (key : Question) (msg : DnsMsg)
    (expire : Nat) : DnsCache :=
  fun q => if q = key then some (msg, expire) else c q

/-- `putMsgToCache` (dns/util.go): take the TTL of the *first* record of
the first non-empty section among answer / authority / additional, and
store the message (a copy; copies are values here) with absolute expiry
`now + ttl`.  If all three sections are empty the message is not cached. -/
def putMsgToCache (c : DnsCache) (now : Nat) (key : Question)
    (msg : DnsMsg) : DnsCache :=
  match msg.answer with
  | rr :: _ => cacheSetWithExpire c key msg (now + rr.ttl)
  | [] =>
    match msg.ns with
    | rr :: _ => cacheSetWithExpire c key msg (now + rr.ttl)
    | [] =>
      match msg.extra with
      | rr :: _ => cacheSetWithExpire c key msg (now + rr.ttl)
      | [] => c

/-- The minimum TTL over the first non-empty section of the response.
Modelled from the spec wording ("the minimum TTL found in the response,
taken from the first non-empty section"), for comparison against
`putMsgToCache`. -/
def specMinTTL (msg : DnsMsg) : Option Nat :=
  match msg.answer with
  | rr :: rest => some (List.foldl (fun acc r => min acc r.ttl) rr.ttl rest)
  | [] =>
    match msg.ns with
    | rr :: rest => some (List.foldl (fun acc r => min acc r.ttl) rr.ttl rest)
    | [] =>
      match msg.extra with
      | rr :: rest => some (List.foldl (fun acc r => min acc r.ttl) rr.ttl rest)
      | [] => none

/-- Outcome of the cache-consulting front half of `Resolver.ExchangeContext`
(the part before `exchangeWithoutCache`):
* `errNoQuestion` — the message carries no question;
* `hitFresh resp` — cache hit before expiry, `resp` returned, no network;
* `hitStale resp` — cache hit past expiry, `resp` returned and exactly one
  background refresh goroutine is spawned (the caller does not wait on it);
* `miss` — fall through to `exchangeWithoutCache`. -/
inductive CacheStep where
  | errNoQuestion
  | hitFresh (resp : DnsMsg)
  | hitStale (resp : DnsMsg)
  | miss
deriving DecidableEq, Repr

/-- `Resolver.ExchangeContext` cache phase: reject empty questions, look
the first question up in the cache; on a hit copy the stored message and
rewrite its TTLs — to the remaining seconds when unexpired, to 1 (plus a
background refresh) when expired.  `expireTime.Before(now)` is the Go
staleness test; `uint32(time.Until(expireTime).Seconds())` is `expire - now`
in whole seconds.  The returned message is built from the cached entry
alone: no transport is consulted on either hit path. -/
def exchangeCacheStep (c : DnsCache) (now : Nat) (m : DnsMsg) : CacheStep :=
  match m.question with
  | [] => .errNoQuestion
  | q :: _ =>
    match c q with
    | some (cacheM, expireTime) =>
      if expireTime < now then .hitStale (setMsgTTL cacheM 1)
      else .hitFresh (setMsgTTL cacheM (expireTime - now))
    | none => .miss

theorem setMsgTTL_all (msg : DnsMsg) (t : Nat) :
    ∀ rr ∈ allRecords (setMsgTTL msg t), rr.ttl = t := by
  intro rr hrr
  simp only [allRecords, setMsgTTL, List.mem_append, List.mem_map] at hrr
  rcases hrr with (⟨r, _, rfl⟩ | ⟨r, _, rfl⟩) | ⟨r, _, rfl⟩ <;> rfl

/-- A concrete response whose answer section holds two records with
distinct TTLs (300 then 60): the code caches it for 300 seconds, the
minimum TTL would demand 60. -/
def twoTTLMsg : DnsMsg :=
  { id := 7, rcode := 0,
    question := [⟨"example.com.", 1, 1⟩],
    answer := [⟨300, none⟩, ⟨60, none⟩],
    ns := [], extra := [] }

/-- The empty cache. -/
def emptyCache : DnsCache := fun _ => none

/-- C2 counterexample: writing `twoTTLMsg` at time 0 installs an entry
expiring at 300 — the TTL of the *first* answer record — while the
minimum TTL of the (first non-empty section of the) response is 60, so
the expiry is not `write time + minimum TTL` as the claim states. -/
theorem putMsgToCache_not_min_ttl_counterexample :
    (putMsgToCache emptyCache 0 ⟨"example.com.", 1, 1⟩ twoTTLMsg)
        ⟨"example.com.", 1, 1⟩ = some (twoTTLMsg, 300) ∧
    specMinTTL twoTTLMsg = some 60 ∧ (300 : Nat) ≠ 0 + 60 := by
  refine ⟨?_, by decide, by decide⟩
  rfl

/-- C2 (amended): when a successful exchange result is written to the DNS
cache, the entry's absolute expiry is the write time plus the TTL of the
*first record* of the first non-empty section among answer / authority /
additional; if all three sections are empty the response is not cached and
the cache is left unchanged. -/
theorem putMsgToCache_first_record_ttl (c : DnsCache) (now : Nat)
    (key : Question) (msg : DnsMsg) :
    (∀ rr rest, msg.answer = rr :: rest →
      putMsgToCache c now key msg =
        cacheSetWithExpire c key msg (now + rr.ttl) ∧
      (putMsgToCache c now key msg) key = some (msg, now + rr.ttl)) ∧
    (msg.answer = [] → ∀ rr rest, msg.ns = rr :: rest →
      putMsgToCache c now key msg =
        cacheSetWithExpire c key msg (now + rr.ttl) ∧
      (putMsgToCache c now key msg) key = some (msg, now + rr.ttl)) ∧
    (msg.answer = [] → msg.ns = [] → ∀ rr rest, msg.extra = rr :: rest →
      putMsgToCache c now key msg =
        cacheSetWithExpire c key msg (now + rr.ttl) ∧
      (putMsgToCache c now key msg) key = some (msg, now + rr.ttl)) ∧
    (msg.answer = [] → msg.ns = [] → msg.extra = [] →
      putMsgToCache c now key msg = c) := by
  refine ⟨?_, ?_, ?_, ?_⟩
  · intro rr rest ha
    constructor
    · simp [putMsgToCache, ha]
    · simp [putMsgToCache, ha, cacheSetWithExpire]
  · intro ha rr rest hn
    constructor
    · simp [putMsgToCache, ha, hn]
    · simp [putMsgToCache, ha, hn, cacheSetWithExpire]
  · intro ha hn rr rest he
    constructor
    · simp [putMsgToCache, ha, hn, he]
    · simp [putMsgToCache, ha, hn, he, cacheSetWithExpire]
  · intro ha hn he
    simp [putMsgToCache, ha, hn, he]

/-- Witness for `putMsgToCache_first_record_ttl` at concrete inputs. -/
theorem putMsgToCache_first_record_ttl_witness :
    putMsgToCache emptyCache 10 ⟨"example.com.", 1, 1⟩ twoTTLMsg =
      cacheSetWithExpire emptyCache ⟨"example.com.", 1, 1⟩ twoTTLMsg (10 + 300) ∧
    (putMsgToCache emptyCache 10 ⟨"example.com.", 1, 1⟩ twoTTLMsg)
      ⟨"example.com.", 1, 1⟩ = some (twoTTLMsg, 10 + 300) :=
  (putMsgToCache_first_record_ttl emptyCache 10 ⟨"example.com.", 1, 1⟩
    twoTTLMsg).1 ⟨300, none⟩ [⟨60, none⟩] rfl

/-- C3: a cache hit before expiry returns a copy of the cached response
with every record's TTL rewritten to the remaining seconds until expiry
(`hitFresh`, no refresh); a hit past expiry returns the stale copy with
every record's TTL forced to 1 and spawns exactly one background refresh
(`hitStale`).  On both hit paths the result is computed from the cached
entry alone — `exchangeCacheStep` takes no transport, so the caller never
waits on the network. -/
theorem exchangeContext_cache_hit (c : DnsCache) (now : Nat) (m : DnsMsg)
    (q : Question) (qs : List Question) (cached : DnsMsg) (expire : Nat)
    (hq : m.question = q :: qs) (hc : c q = some (cached, expire)) :
    (now < expire →
      exchangeCacheStep c now m = .hitFresh (setMsgTTL cached (expire - now)) ∧
      ∀ rr ∈ allRecords (setMsgTTL cached (expire - now)),
        rr.ttl = expire - now) ∧
    (expire < now →
      exchangeCacheStep c now m = .hitStale (setMsgTTL cached 1) ∧
      ∀ rr ∈ allRecords (setMsgTTL cached 1), rr.ttl = 1) := by
  constructor
  · intro hlt
    refine ⟨?_, setMsgTTL_all cached (expire - now)⟩
    simp [exchangeCacheStep, hq, hc, Nat.not_lt_of_lt hlt]
  · intro hlt
    refine ⟨?_, setMsgTTL_all cached 1⟩
    simp [exchangeCacheStep, hq, hc, hlt]

/-- A cache holding `twoTTLMsg` for its own question with expiry 100. -/
def cache100 : DnsCache :=
  cacheSetWithExpire emptyCache ⟨"example.com.", 1, 1⟩ twoTTLMsg 100

/-- Witness for `exchangeContext_cache_hit`: at time 40 the hit is fresh
with remaining TTL 60; at time 140 the hit is stale with TTL 1. -/
theorem exchangeContext_cache_hit_witness :
    (exchangeCacheStep cache100 40 twoTTLMsg =
        .hitFresh (setMsgTTL twoTTLMsg (100 - 40)) ∧
      ∀ rr ∈ allRecords (setMsgTTL twoTTLMsg (100 - 40)),
        rr.ttl = 100 - 40) ∧
    (exchangeCacheStep cache100 140 twoTTLMsg =
        .hitStale (setMsgTTL twoTTLMsg 1) ∧
      ∀ rr ∈ allRecords (setMsgTTL twoTTLMsg 1), rr.ttl = 1) :=
  ⟨(exchangeContext_cache_hit cache100 40 twoTTLMsg ⟨"example.com.", 1, 1⟩ []
      twoTTLMsg 100 rfl rfl).1 (by decide),
   (exchangeContext_cache_hit cache100 140 twoTTLMsg ⟨"example.com.", 1, 1⟩ []
      twoTTLMsg 100 rfl rfl).2 (by decide)⟩

/-- The result of exchanging with one upstream group, as delivered on the
`asyncExchange` channel: either a response message or an error (the
`result` struct's `Msg`/`Error` pair). -/
def DnsResult : Type := Except String DnsMsg

instance : DecidableEq DnsResult := fun a b =>
  match a, b with
  | .ok x, .ok y => if h : x = y then isTrue (by rw [h]) else
      isFalse (by intro hc; cases hc; exact h rfl)
  | .error x, .error y => if h : x = y then isTrue (by rw [h]) else
      isFalse (by intro hc; cases hc; exact h rfl)
  | .ok _, .error _ => isFalse (by intro hc; cases hc)
  | .error _, .ok _ => isFalse (by intro hc; cases hc)

/-- The fallback-relevant configuration of a `Resolver`: its fallback-IP
filters (`fallbackIPFilters`, each a predicate over a resolved address)
and whether a fallback group is configured (`r.fallback` non-nil and
non-empty). -/
structure ResolverConf where
  fallbackIPFilters : List (IPAddr → Bool)
  hasFallback : Bool

/-- `Resolver.shouldIPFallback`: does any fallback-IP filter match? -/
def shouldIPFallback (conf : ResolverConf) (ip : IPAddr) : Bool :=
  conf.fallbackIPFilters.any (fun filter => filter ip)

/-- `Resolver.ipExchange`.  The three group queries are network effects;
their delivered results enter as explicit arguments: `policyRes` for a
matching policy group, `fallbackRes` for the fallback group, `mainRes`
for the main group.  `policyMatched` is `len(r.matchPolicy(m)) != 0` and
`onlyFallback` is `r.shouldOnlyQueryFallback(m)`.  Mirrors the source
control flow: return the policy result when a policy matches; the
fallback result for fallback-only domains; the main result when no
fallback group exists; otherwise wait for the main result and return it
only when it succeeded, resolved at least one IP, and the first IP
matches no fallback-IP filter — in every other case (error, no IPs, or a
filter match) query the fallback group and return its result. -/
def ipExchange (conf : ResolverConf) (policyMatched : Bool)
    (policyRes : DnsResult) (onlyFallback : Bool) (fallbackRes : DnsResult)
    (mainRes : DnsResult) : DnsResult :=
  if policyMatched then policyRes
  else if onlyFallback then fallbackRes
  else if !conf.hasFallback then mainRes
  else
    match mainRes with
    | .ok msg =>
      match msgToIP msg with
      | ip :: _ =>
        if !shouldIPFallback conf ip then .ok msg else fallbackRes
      | [] => fallbackRes
    | .error _ => fallbackRes

/-- A concrete fallback-group answer distinct from any error. -/
def fbMsg : DnsMsg :=
  { id := 1, rcode := 0, question := [⟨"example.com.", 1, 1⟩],
    answer := [⟨60, some ⟨true, 42⟩⟩], ns := [], extra := [] }

/-- C1 counterexample: with a fallback group configured, no policy match
and no fallback-only domain match, a main-group *error* is not returned:
`ipExchange` falls through to the fallback group and returns the fallback
result, contradicting the claim that an erroring main result is returned
immediately without consulting the fallback group. -/
theorem ipExchange_main_error_counterexample :
    ipExchange ⟨[fun _ => true], true⟩ false (.error "policy") false
        (.ok fbMsg) (.error "main group failed") = .ok fbMsg ∧
    (Except.ok fbMsg : DnsResult) ≠ .error "main group failed" := by
  exact ⟨rfl, by intro h; cases h⟩

/-- C1 (amended): for an address question with a fallback group
configured and no matching policy or fallback-only domain filter, the IP
exchange waits for the main result and returns it *only* when it
succeeded, resolved at least one IP, and its first IP matches no
fallback-IP filter; in every other case — the main result errors,
resolves no IPs, or its first IP matches a fallback-IP filter — the
fallback group is queried and its result returned, the main result
discarded. -/
theorem ipExchange_fallback_decision (conf : ResolverConf)
    (policyRes fallbackRes mainRes : DnsResult)
    (hfb : conf.hasFallback = true) :
    (∀ msg ip rest, mainRes = .ok msg → msgToIP msg = ip :: rest →
      shouldIPFallback conf ip = false →
      ipExchange conf false policyRes false fallbackRes mainRes = mainRes) ∧
    (∀ e, mainRes = .error e →
      ipExchange conf false policyRes false fallbackRes mainRes =
        fallbackRes) ∧
    (∀ msg, mainRes = .ok msg → msgToIP msg = [] →
      ipExchange conf false policyRes false fallbackRes mainRes =
        fallbackRes) ∧
    (∀ msg ip rest, mainRes = .ok msg → msgToIP msg = ip :: rest →
      shouldIPFallback conf ip = true →
      ipExchange conf false policyRes false fallbackRes mainRes =
        fallbackRes) := by
  refine ⟨?_, ?_, ?_, ?_⟩
  · intro msg ip rest hm hip hflt
    subst hm
    simp [ipExchange, hfb, hip, hflt]
  · intro e hm
    subst hm
    simp [ipExchange, hfb]
  · intro msg hm hip
    subst hm
    simp [ipExchange, hfb, hip]
  · intro msg ip rest hm hip hflt
    subst hm
    simp [ipExchange, hfb, hip, hflt]

/-- A main-group answer whose first IP matches the configured filter. -/
def mainFilteredMsg : DnsMsg :=
  { id := 2, rcode := 0, question := [⟨"example.com.", 1, 1⟩],
    answer := [⟨60, some ⟨true, 7⟩⟩], ns := [], extra := [] }

/-- Witness for `ipExchange_fallback_decision`: with a filter matching
address value 7, a main answer resolving to 7 is discarded in favour of
the fallback answer, and a main answer resolving to 42 with a
never-matching filter is returned directly. -/
theorem ipExchange_fallback_decision_witness :
    ipExchange ⟨[fun ip => ip.val == 7], true⟩ false (.error "policy") false
        (.ok fbMsg) (.ok mainFilteredMsg) = .ok fbMsg ∧
    ipExchange ⟨[fun ip => ip.val == 7], true⟩ false (.error "policy") false
        (.error "fb") (.ok fbMsg) = .ok fbMsg :=
  ⟨(ipExchange_fallback_decision ⟨[fun ip => ip.val == 7], true⟩
      (.error "policy") (.ok fbMsg) (.ok mainFilteredMsg) rfl).2.2.2
      mainFilteredMsg ⟨true, 7⟩ [] rfl rfl rfl,
   (ipExchange_fallback_decision ⟨[fun ip => ip.val == 7], true⟩
      (.error "policy") (.error "fb") (.ok fbMsg) rfl).1
      fbMsg ⟨true, 42⟩ [] rfl rfl rfl⟩

/-- `resolver.ErrIPNotFound` ("couldn't find ip"). -/
def errIPNotFound : String := "could not find ip"

/-- `Resolver.ResolveIP`: the `TypeAAAA` lookup runs in a goroutine whose
channel delivers an address only on success (the channel is closed without
a value on error); the `TypeA` lookup runs in the caller.  The two lookup
outcomes enter as explicit arguments `resA` / `resAAAA`.  If `TypeA`
succeeds its address is returned at once, without reading the `AAAA`
channel; only when `TypeA` fails is the channel read: a delivered address
is returned, a closed channel (a failed `AAAA` lookup) yields
`ErrIPNotFound`. -/
def resolveIPRace (resA resAAAA : Except String IPAddr) :
    Except String IPAddr :=
  match resA with
  | .ok ip => .ok ip
  | .error _ =>
    match resAAAA with
    | .ok ip => .ok ip
    | .error _ => .error errIPNotFound

/-- C7: `resolve(host)` returns the A result whenever the A lookup
succeeds; the AAAA result is consulted only when the A lookup fails, and
when both fail the call returns the not-found error. -/
theorem resolveIP_prefer_v4 (resA resAAAA : Except String IPAddr) :
    (∀ ip, resA = .ok ip → resolveIPRace resA resAAAA = .ok ip) ∧
    (∀ e ip, resA = .error e → resAAAA = .ok ip →
      resolveIPRace resA resAAAA = .ok ip) ∧
    (∀ e e2, resA = .error e → resAAAA = .error e2 →
      resolveIPRace resA resAAAA = .error errIPNotFound) := by
  refine ⟨?_, ?_, ?_⟩
  · intro ip h; subst h; rfl
  · intro e ip h h2; subst h; subst h2; rfl
  · intro e e2 h h2; subst h; subst h2; rfl

/-- Witness for `resolveIP_prefer_v4`: a successful A lookup wins even
when the AAAA lookup also succeeded; both failing yields not-found. -/
theorem resolveIP_prefer_v4_witness :
    resolveIPRace (.ok ⟨true, 4⟩) (.ok ⟨false, 6⟩) = .ok ⟨true, 4⟩ ∧
    resolveIPRace (.error "a failed") (.ok ⟨false, 6⟩) = .ok ⟨false, 6⟩ ∧
    resolveIPRace (.error "a failed") (.error "aaaa failed") =
      .error errIPNotFound :=
  ⟨(resolveIP_prefer_v4 (.ok ⟨true, 4⟩) (.ok ⟨false, 6⟩)).1 ⟨true, 4⟩ rfl,
   (resolveIP_prefer_v4 (.error "a failed") (.ok ⟨false, 6⟩)).2.1
     "a failed" ⟨false, 6⟩ rfl rfl,
   (resolveIP_prefer_v4 (.error "a failed") (.error "aaaa failed")).2.2
     "a failed" "aaaa failed" rfl rfl⟩

/-- The message `dohClient.ExchangeContext` actually transmits: a value
copy of the caller's message (`newM := *m`) with the header id forced to
zero: the caller's `m` itself is left untouched. -/
def dohRequestMsg (m : DnsMsg) : DnsMsg := { m with id := 0 }

/-- `dohClient.ExchangeContext`: POST the packed copy with id 0; on a
successful round trip restore the caller's original id on the response.
The HTTP round trip (`newRequest` + `doRequest`) enters as the function
argument `roundtrip`, applied to the transmitted message. -/
def dohExchangeContext (roundtrip : DnsMsg → Except String DnsMsg)
    (m : DnsMsg) : Except String DnsMsg :=
  match roundtrip (dohRequestMsg m) with
  | .ok resp => .ok { resp with id := m.id }
  | .error e => .error e

/-- C8: the DoH transport transmits a request whose id is zero but which
otherwise agrees with the caller's message `m` (which is itself not
modified — the transmitted value is a copy), and on success the returned
response carries the caller's original id `m.id`. -/
theorem dohExchange_zero_id_restore
    (roundtrip : DnsMsg → Except String DnsMsg) (m : DnsMsg) :
    (dohRequestMsg m).id = 0 ∧
    (dohRequestMsg m).rcode = m.rcode ∧
    (dohRequestMsg m).question = m.question ∧
    (dohRequestMsg m).answer = m.answer ∧
    (dohRequestMsg m).ns = m.ns ∧
    (dohRequestMsg m).extra = m.extra ∧
    (∀ resp, roundtrip (dohRequestMsg m) = .ok resp →
      dohExchangeContext roundtrip m = .ok { resp with id := m.id } ∧
      (DnsMsg.id { resp with id := m.id }) = m.id) ∧
    (∀ e, roundtrip (dohRequestMsg m) = .error e →
      dohExchangeContext roundtrip m = .error e) := by
  refine ⟨rfl, rfl, rfl, rfl, rfl, rfl, ?_, ?_⟩
  · intro resp hr
    constructor
    · simp [dohExchangeContext, hr]
    · rfl
  · intro e hr
    simp [dohExchangeContext, hr]

/-- Witness for `dohExchange_zero_id_restore`: a round trip answering
`fbMsg` (id 1) to the id-zeroed copy of `twoTTLMsg` (id 7) yields a
response carrying id 7 again. -/
theorem dohExchange_zero_id_restore_witness :
    (dohRequestMsg twoTTLMsg).id = 0 ∧
    dohExchangeContext (fun _ => .ok fbMsg) twoTTLMsg =
      .ok { fbMsg with id := twoTTLMsg.id } ∧
    (DnsMsg.id { fbMsg with id := twoTTLMsg.id }) = twoTTLMsg.id :=
  ⟨(dohExchange_zero_id_restore (fun _ => .ok fbMsg) twoTTLMsg).1,
   (dohExchange_zero_id_restore (fun _ => .ok fbMsg) twoTTLMsg).2.2.2.2.2.2.1
     fbMsg rfl⟩

/-- The network kind of a flow (`C.TCP` / `C.UDP`). -/
inductive NetworkType where
  | tcp
  | udp
deriving DecidableEq, Repr

/-- The DNS-resolution-mode tag (`C.DNSMode`): normal, host-mapping, or
fake-IP. -/
inductive DNSModeTag where
  | normal
  | mapping
  | fakeIP
deriving DecidableEq, Repr

/-- Flow metadata (`C.Metadata`) restricted to the fields the dispatcher
and preprocessor read or write: network kind, destination host,
destination IP (`none` models an invalid `netip.Addr`), the lazily
populated process name, and the DNS-mode tag. -/
structure Metadata where
  network : NetworkType
  host : String
  dstIP : Option IPAddr
  process : Option String
  dnsMode : DNSModeTag
deriving DecidableEq, Repr

/-- The resolver-side environment `preHandleMetadata` consults.  The
enhancer internals (`resolver.MappingEnabled`, `FindHostByIP`,
`FakeIPEnabled`, `IsFakeIP`, `DefaultHosts`) are not part of the analysed
sources.  Modelled from the spec: `mappingEnabled` — enhanced-resolution
mode (mapping or fake-ip) is active; `findHostByIP` — reverse lookup of an
IP in the host-mapping table; `fakeIPEnabled` — fake-ip mode; `isFakeIP` —
membership of the fake-IP address pool; `defaultHosts` — the static hosts
table; `parseAddr` — `netip.ParseAddr` on the host string. -/
structure PreHandleEnv where
  parseAddr : String → Option IPAddr
  mappingEnabled : Bool
  fakeIPEnabled : Bool
  findHostByIP : IPAddr → Option String
  defaultHosts : String → Option IPAddr
  isFakeIP : IPAddr → Bool

/-- `needLookupIP` (tunnel/tunnel.go): mapping is enabled, the host is
empty and the destination IP is valid. -/
def needLookupIP (env : PreHandleEnv) (md : Metadata) : Bool :=
  env.mappingEnabled && md.host == "" && md.dstIP.isSome

/-- The error `preHandleMetadata` can produce: the destination IP belongs
to the fake-IP pool but no fake DNS record maps it back to a host. -/
inductive PreHandleError where
  | fakeRecordMissing (ip : IPAddr)
deriving DecidableEq, Repr

/-- The first step of `preHandleMetadata`: a host field that parses as a
literal IP is moved into the IP field and the host is cleared. -/
def preHandleStep1 (env : PreHandleEnv) (md : Metadata) : Metadata :=
  match env.parseAddr md.host with
  | some ip => { md with dstIP := some ip, host := "" }
  | none => md

/-- `preHandleMetadata` (tunnel/tunnel.go): collapse a literal-IP host,
then — in enhanced mode, for a flow with a valid IP and no host — reverse
look the IP up: a found host is installed (tag `mapping`), under fake-ip
mode the IP is cleared (tag `fakeIP`), otherwise a static-hosts entry for
the found host substitutes the mapped IP; when nothing is found and the
IP belongs to the fake-IP pool the flow fails with a missing fake DNS
record error.  Every other path succeeds. -/
def preHandleMetadata (env : PreHandleEnv) (md : Metadata) :
    Except PreHandleError Metadata :=
  let md1 := preHandleStep1 env md
  if needLookupIP env md1 then
    match md1.dstIP with
    | some ip =>
      match env.findHostByIP ip with
      | some host =>
        let md2 := { md1 with host := host, dnsMode := .mapping }
        if env.fakeIPEnabled then
          .ok { md2 with dstIP := none, dnsMode := .fakeIP }
        else
          match env.defaultHosts host with
          | some ip2 => .ok { md2 with dstIP := some ip2 }
          | none => .ok md2
      | none =>
        if env.isFakeIP ip then .error (.fakeRecordMissing ip) else .ok md1
    | none => .ok md1
  else .ok md1

/-- Does an `Except` value carry an error? -/
def isErr {ε α : Type} : Except ε α → Bool
  | .error _ => true
  | .ok _ => false

/-- C6: `preHandleMetadata` first moves a host that parses as a literal
IP into the IP field, clearing the host; and it errors exactly when
enhanced mapping is active, the (post-move) metadata has a valid
destination IP and an empty host, the reverse lookup finds no host, and
the IP belongs to the fake-IP pool.  In every other case it succeeds. -/
theorem preHandleMetadata_error_iff (env : PreHandleEnv) (md : Metadata) :
    (isErr (preHandleMetadata env md) = true ↔
      (env.mappingEnabled = true ∧ (preHandleStep1 env md).host = "" ∧
        ∃ ip, (preHandleStep1 env md).dstIP = some ip ∧
          env.findHostByIP ip = none ∧ env.isFakeIP ip = true)) ∧
    (∀ ip, env.parseAddr md.host = some ip →
      (preHandleStep1 env md).dstIP = some ip ∧
      (preHandleStep1 env md).host = "") := by
  constructor
  · by_cases hn : needLookupIP env (preHandleStep1 env md) = true
    · have hcomp := hn
      simp only [needLookupIP, Bool.and_eq_true, beq_iff_eq,
        Option.isSome_iff_exists] at hcomp
      obtain ⟨⟨hme, hh⟩, ip, hip⟩ := hcomp
      rcases hf : env.findHostByIP ip with _ | host
      · rcases hfk : env.isFakeIP ip with _ | _
        · simp only [preHandleMetadata, hn, if_true, hip, hf, hfk,
            Bool.false_eq_true, if_false, isErr, Bool.false_eq_true,
            false_iff, not_and]
          intro _ _
          rintro ⟨ip2, hip2, _, hfk2⟩
          cases hip2
          rw [hfk] at hfk2
          cases hfk2
        · simp only [preHandleMetadata, hn, if_true, hip, hf, hfk, isErr,
            true_iff]
          exact ⟨hme, hh, ip, rfl, hf, hfk⟩
      · simp only [preHandleMetadata, hn, if_true, hip, hf]
        rcases hfe : env.fakeIPEnabled with _ | _ <;>
          rcases hdh : env.defaultHosts host with _ | ip2 <;>
          simp [hfe, hdh, isErr] <;>
          exact fun _ _ hf2 => absurd hf2 (by simp [hf])
    · simp only [preHandleMetadata, hn, if_false, Bool.false_eq_true,
        isErr, false_iff, not_and]
      intro hme hh
      rintro ⟨ip, hip, _, _⟩
      exact hn (by simp [needLookupIP, hme, hh, hip])
  · intro ip hp
    simp [preHandleStep1, hp]

/-- An environment whose reverse lookup always fails and whose fake-IP
pool contains everything, with mapping enabled and `"1.2.3.4"` parsing
as a literal address. -/
def fakeMissEnv : PreHandleEnv :=
  { parseAddr := fun s => if s = "1.2.3.4" then some ⟨true, 16909060⟩ else none,
    mappingEnabled := true,
    fakeIPEnabled := true,
    findHostByIP := fun _ => none,
    defaultHosts := fun _ => none,
    isFakeIP := fun _ => true }

/-- A flow whose host is the literal `"1.2.3.4"`. -/
def literalHostMd : Metadata :=
  { network := .tcp, host := "1.2.3.4", dstIP := none, process := none,
    dnsMode := .normal }

/-- Witness for `preHandleMetadata_error_iff`: the literal host is moved
into the IP field, and the flow then fails with the missing fake DNS
record error since reverse lookup finds nothing and the pool claims the
address. -/
theorem preHandleMetadata_error_iff_witness :
    (isErr (preHandleMetadata fakeMissEnv literalHostMd) = true ↔
      (fakeMissEnv.mappingEnabled = true ∧
        (preHandleStep1 fakeMissEnv literalHostMd).host = "" ∧
        ∃ ip, (preHandleStep1 fakeMissEnv literalHostMd).dstIP = some ip ∧
          fakeMissEnv.findHostByIP ip = none ∧
          fakeMissEnv.isFakeIP ip = true)) ∧
    (preHandleStep1 fakeMissEnv literalHostMd).dstIP =
        some ⟨true, 16909060⟩ ∧
    (preHandleStep1 fakeMissEnv literalHostMd).host = "" :=
  ⟨(preHandleMetadata_error_iff fakeMissEnv literalHostMd).1,
   (preHandleMetadata_error_iff fakeMissEnv literalHostMd).2
     ⟨true, 16909060⟩ rfl⟩

/-- An outbound proxy adapter as the dispatcher sees it: its name and
whether it declares UDP support (`C.Proxy.SupportUDP`). -/
structure Proxy where
  name : String
  supportUDP : Bool
deriving DecidableEq, Repr

/-- A routing rule (`C.Rule`): its matching predicate over metadata
(`Match`), the name of its outbound (`Adapter`), and the two lazy-need
declarations (`ShouldResolveIP` / `ShouldFindProcess`). -/
structure Rule where
  ruleMatch : Metadata → Bool
  adapter : String
  shouldResolveIP : Bool
  shouldFindProcess : Bool

/-- The collaborators the `match` loop consults: the static hosts table
(`resolver.DefaultHosts.Search`), the resolver (`resolver.ResolveIP`;
`none` is a resolution error, which is logged and ignored), the
process-name finder (`P.FindProcessName` composed with the source-port
parse; `none` covers both failure modes), and the active proxy set. -/
structure MatchEnv where
  hosts : String → Option IPAddr
  resolveIP : String → Option IPAddr
  findProcess : Metadata → Option String
  proxies : String → Option Proxy

/-- `shouldResolveIP` (tunnel/tunnel.go): the rule wants an IP and the
metadata has a host but no valid destination IP yet. -/
def shouldResolveIP (rule : Rule) (metadata : Metadata) : Bool :=
  rule.shouldResolveIP && metadata.host != "" && !metadata.dstIP.isSome

/-- The mutable state of one `match` pass: the metadata (mutated in
place by the Go loop), the `resolved` and `processFound` flags, and two
ghost counters recording how many times the resolver / process finder
were invoked during the pass. -/
structure MatchState where
  md : Metadata
  resolved : Bool
  processFound : Bool
  resolveCalls : Nat
  processCalls : Nat

/-- The pre-match body of one iteration of the `match` loop: trigger the
lazy IP resolution (at most once per pass; a failure is logged and the IP
left unresolved, but `resolved` is set regardless) and the lazy process
lookup (at most once per pass; `processFound` is set regardless of the
outcome). -/
def stepRule (env : MatchEnv) (st : MatchState) (rule : Rule) : MatchState :=
  let st1 :=
    if !st.resolved && shouldResolveIP rule st.md then
      let md1 :=
        match env.resolveIP st.md.host with
        | some ip => { st.md with dstIP := some ip }
        | none => st.md
      { st with
        md := md1
        resolved := true
        resolveCalls := st.resolveCalls + 1 }
    else st
  if !st1.processFound && rule.shouldFindProcess then
    let md2 :=
      match env.findProcess st1.md with
      | some path => { st1.md with process := some path }
      | none => st1.md
    { st1 with
      md := md2
      processFound := true
      processCalls := st1.processCalls + 1 }
  else st1

/-- The usability test of one rule at the current metadata: the rule
matches, its named outbound exists in the active proxy set, and — for a
UDP flow — the outbound supports UDP.  Returns the adapter on success;
`none` means the loop continues with the next rule. -/
def ruleHit (env : MatchEnv) (md : Metadata) (rule : Rule) : Option Proxy :=
  if rule.ruleMatch md then
    match env.proxies rule.adapter with
    | some a => if md.network == .udp && !a.supportUDP then none else some a
    | none => none
  else none

/-- The `match` loop over the ordered rule list: per rule, run the lazy
resolution step, test the rule, and return the first usable hit; when no
rule yields a usable outbound, return the `REJECT` outbound with no
matched rule (the Go function always returns a nil error).  The final
`MatchState` is returned alongside for the ghost counters. -/
def matchLoop (env : MatchEnv) (st : MatchState) :
    List Rule → (Option Proxy × Option Rule) × MatchState
  | [] => ((env.proxies "REJECT", none), st)
  | rule :: rest =>
    let st1 := stepRule env st rule
    match ruleHit env st1.md rule with
    | some a => ((some a, some rule), st1)
    | none => matchLoop env st1 rest

/-- The entry setup of `match`: consult the static hosts table once; a
hit installs the mapped IP and marks the pass resolved. -/
def matchInit (env : MatchEnv) (metadata : Metadata) : MatchState :=
  match env.hosts metadata.host with
  | some ip => ⟨{ metadata with dstIP := some ip }, true, false, 0, 0⟩
  | none => ⟨metadata, false, false, 0, 0⟩

/-- `match` (tunnel/tunnel.go; `match` is reserved in Lean): hosts-table
setup followed by the rule loop. -/
def matchRules (env : MatchEnv) (metadata : Metadata) (rules : List Rule) :
    (Option Proxy × Option Rule) × MatchState :=
  matchLoop env (matchInit env metadata) rules

/-- The hit produced by rule `i` of the pass started in state `st`:
the rule paired with its adapter when rule `i`, evaluated against the
metadata as evolved by the first `i + 1` lazy-resolution steps, matches
and resolves to a usable outbound. -/
def hitAt (env : MatchEnv) (st : MatchState) (rules : List Rule) (i : Nat) :
    Option (Proxy × Rule) :=
  match rules[i]? with
  | some r =>
    (ruleHit env (List.foldl (stepRule env) st (List.take (i + 1) rules)).md
      r).map (fun a => (a, r))
  | none => none

theorem hitAt_zero (env : MatchEnv) (st : MatchState) (r : Rule)
    (rest : List Rule) :
    hitAt env st (r :: rest) 0 =
      (ruleHit env (stepRule env st r).md r).map (fun a => (a, r)) := by
  simp [hitAt, List.take_succ_cons]

theorem hitAt_succ (env : MatchEnv) (st : MatchState) (r : Rule)
    (rest : List Rule) (i : Nat) :
    hitAt env st (r :: rest) (i + 1) = hitAt env (stepRule env st r) rest i := by
  simp [hitAt, List.take_succ_cons]

theorem matchLoop_hit (env : MatchEnv) :
    ∀ (rules : List Rule) (st : MatchState) (i : Nat) (a : Proxy) (r : Rule),
      hitAt env st rules i = some (a, r) →
      (∀ j, j < i → hitAt env st rules j = none) →
      (matchLoop env st rules).1 = (some a, some r) := by
  intro rules
  induction rules with
  | nil => intro st i a r hhit _; simp [hitAt] at hhit
  | cons rule rest ih =>
    intro st i a r hhit hprev
    cases i with
    | zero =>
      rw [hitAt_zero] at hhit
      rcases hr : ruleHit env (stepRule env st rule).md rule with _ | a2
      · rw [hr] at hhit; cases hhit
      · rw [hr] at hhit
        simp only [Option.map_some'] at hhit
        cases hhit
        simp [matchLoop, hr]
    | succ i =>
      have h0 := hprev 0 (Nat.succ_pos i)
      rw [hitAt_zero] at h0
      rcases hr : ruleHit env (stepRule env st rule).md rule with _ | a2
      · simp only [matchLoop, hr]
        rw [hitAt_succ] at hhit
        refine ih (stepRule env st rule) i a r hhit ?_
        intro j hj
        have := hprev (j + 1) (Nat.succ_lt_succ hj)
        rw [hitAt_succ] at this
        exact this
      · rw [hr] at h0; cases h0

theorem matchLoop_nohit (env : MatchEnv) :
    ∀ (rules : List Rule) (st : MatchState),
      (∀ j, hitAt env st rules j = none) →
      (matchLoop env st rules).1 = (env.proxies "REJECT", none) := by
  intro rules
  induction rules with
  | nil => intro st _; rfl
  | cons rule rest ih =>
    intro st hall
    have h0 := hall 0
    rw [hitAt_zero] at h0
    rcases hr : ruleHit env (stepRule env st rule).md rule with _ | a2
    · simp only [matchLoop, hr]
      refine ih (stepRule env st rule) ?_
      intro j
      have := hall (j + 1)
      rw [hitAt_succ] at this
      exact this
    · rw [hr] at h0; cases h0

/-- C4: the dispatch returns the adapter and rule of the first rule (in
list order, each rule judged against the metadata as evolved by the lazy
resolution steps of the same pass) that matches and whose named outbound
exists in the active proxy set and supports UDP when the flow is UDP;
every earlier rule either failed to match or was skipped for a missing or
UDP-incapable outbound without failing the dispatch.  When no rule yields
a usable outbound the dispatch returns the `REJECT` outbound and no
matched rule. -/
theorem matchRules_first_usable_wins (env : MatchEnv) (metadata : Metadata)
    (rules : List Rule) :
    (∀ i a r, hitAt env (matchInit env metadata) rules i = some (a, r) →
      (∀ j, j < i → hitAt env (matchInit env metadata) rules j = none) →
      (matchRules env metadata rules).1 = (some a, some r)) ∧
    ((∀ j, hitAt env (matchInit env metadata) rules j = none) →
      (matchRules env metadata rules).1 = (env.proxies "REJECT", none)) :=
  ⟨fun i a r hhit hprev =>
    matchLoop_hit env rules (matchInit env metadata) i a r hhit hprev,
   fun hall => matchLoop_nohit env rules (matchInit env metadata) hall⟩

/-- A proxy set holding `P1`, `DIRECT` and `REJECT` but not `MISSING`;
the resolver, hosts table and process finder all come up empty. -/
def wEnv : MatchEnv :=
  { hosts := fun _ => none,
    resolveIP := fun _ => none,
    findProcess := fun _ => none,
    proxies := fun nm =>
      if nm = "P1" then some ⟨"P1", true⟩
      else if nm = "DIRECT" then some ⟨"DIRECT", true⟩
      else if nm = "REJECT" then some ⟨"REJECT", false⟩
      else none }

/-- A domain rule for `example.com` pointing at an absent outbound. -/
def ruleMissing : Rule :=
  ⟨fun md => md.host == "example.com", "MISSING", false, false⟩

/-- A domain rule for `example.com` pointing at outbound `P1`. -/
def ruleP1 : Rule :=
  ⟨fun md => md.host == "example.com", "P1", false, false⟩

/-- The catch-all rule pointing at `DIRECT`. -/
def ruleMatchAll : Rule := ⟨fun _ => true, "DIRECT", false, false⟩

/-- A TCP flow towards host `example.com`. -/
def wMd : Metadata := ⟨.tcp, "example.com", none, none, .normal⟩

/-- Witness for `matchRules_first_usable_wins`: rule 0 matches but its
outbound is missing from the proxy set, so it is skipped and rule 1 wins
with `P1`; and a flow matching no rule dispatches to `REJECT` with no
matched rule. -/
theorem matchRules_first_usable_wins_witness :
    (matchRules wEnv wMd [ruleMissing, ruleP1, ruleMatchAll]).1 =
      (some ⟨"P1", true⟩, some ruleP1) ∧
    (matchRules wEnv ⟨.tcp, "other.com", none, none, .normal⟩ [ruleP1]).1 =
      (wEnv.proxies "REJECT", none) :=
  ⟨(matchRules_first_usable_wins wEnv wMd
      [ruleMissing, ruleP1, ruleMatchAll]).1 1 ⟨"P1", true⟩ ruleP1 rfl
      (fun j hj => by
        have hj0 : j = 0 := Nat.lt_one_iff.mp hj
        subst hj0
        rfl),
   (matchRules_first_usable_wins wEnv
      ⟨.tcp, "other.com", none, none, .normal⟩ [ruleP1]).2
      (fun j => by
        match j with
        | 0 => rfl
        | n + 1 => simp [hitAt])⟩

/-- The pass invariant behind C5: each lazy action is attempted only
while its flag is still unset, so the flag bounds the ghost counter. -/
def stInv (st : MatchState) : Prop :=
  (st.resolved = false → st.resolveCalls = 0) ∧ st.resolveCalls ≤ 1 ∧
  (st.processFound = false → st.processCalls = 0) ∧ st.processCalls ≤ 1

theorem stepRule_inv (env : MatchEnv) (st : MatchState) (rule : Rule)
    (h : stInv st) : stInv (stepRule env st rule) := by
  obtain ⟨h1, h2, h3, h4⟩ := h
  unfold stInv stepRule
  dsimp only
  repeat' split
  all_goals simp_all

/-- The lazy-resolution step never removes information from the
metadata: its destination IP and process fields either persist or are
set to a freshly resolved value. -/
theorem stepRule_mono (env : MatchEnv) (st : MatchState) (rule : Rule) :
    ((stepRule env st rule).md.dstIP = st.md.dstIP ∨
      ∃ ip, (stepRule env st rule).md.dstIP = some ip) ∧
    ((stepRule env st rule).md.process = st.md.process ∨
      ∃ p, (stepRule env st rule).md.process = some p) := by
  unfold stepRule
  constructor <;>
  · dsimp only
    repeat' split
    all_goals simp

theorem matchLoop_inv (env : MatchEnv) :
    ∀ (rules : List Rule) (st : MatchState),
      stInv st → stInv (matchLoop env st rules).2 := by
  intro rules
  induction rules with
  | nil => intro st h; exact h
  | cons rule rest ih =>
    intro st h
    have h1 := stepRule_inv env st rule h
    rcases hr : ruleHit env (stepRule env st rule).md rule with _ | a
    · simpa [matchLoop, hr] using ih (stepRule env st rule) h1
    · simpa [matchLoop, hr] using h1

theorem matchInit_inv (env : MatchEnv) (metadata : Metadata) :
    stInv (matchInit env metadata) := by
  unfold stInv matchInit
  split <;> simp

/-- C5: within a single dispatch pass, the rule-triggered IP resolution
is invoked at most once and the process-name lookup at most once (the
ghost counters of the final pass state are bounded by 1, whether or not
the attempts succeeded — a failure still sets the pass flag and matching
continues); and each lazy step only ever adds information to the
metadata: a destination IP or process name, once present, persists into
every later rule evaluation of the pass. -/
theorem matchRules_lazy_at_most_once (env : MatchEnv) (metadata : Metadata)
    (rules : List Rule) :
    ((matchRules env metadata rules).2.resolveCalls ≤ 1 ∧
      (matchRules env metadata rules).2.processCalls ≤ 1) ∧
    (∀ st rule,
      (st.md.dstIP.isSome = true →
        ((stepRule env st rule).md.dstIP).isSome = true) ∧
      (st.md.process.isSome = true →
        ((stepRule env st rule).md.process).isSome = true)) := by
  constructor
  · have h := matchLoop_inv env rules (matchInit env metadata)
      (matchInit_inv env metadata)
    exact ⟨h.2.1, h.2.2.2⟩
  · intro st rule
    obtain ⟨hd, hp⟩ := stepRule_mono env st rule
    constructor
    · intro hs
      rcases hd with h | ⟨ip, h⟩ <;> rw [h] <;> simp_all
    · intro hs
      rcases hp with h | ⟨p, h⟩ <;> rw [h] <;> simp_all

/-- Witness for `matchRules_lazy_at_most_once` at the concrete dispatch
of the C4 witness. -/
theorem matchRules_lazy_at_most_once_witness :
    (matchRules wEnv wMd [ruleMissing, ruleP1, ruleMatchAll]).2.resolveCalls
        ≤ 1 ∧
    (matchRules wEnv wMd
        [ruleMissing, ruleP1, ruleMatchAll]).2.processCalls ≤ 1 :=
  (matchRules_lazy_at_most_once wEnv wMd [ruleMissing, ruleP1, ruleMatchAll]).1

/-- The program location of one UDP packet task inside `handleUDPConn`,
for a fixed session key:
* `start` — about to run the first `handle()` table check;
* `checked` — the table check missed; about to call `GetOrCreateLock`;
* `creating` — claimed the in-progress marker (`loaded = false`) and is
  running the creation path (`resolveMetadata` + `ListenPacketContext`);
* `installed` — creation succeeded and `natTable.Set(key, pc)` ran; the
  deferred `Delete(lockKey)` + `Broadcast` have not run yet;
* `waiting` — observed the marker already claimed (`loaded = true`) and
  is blocked in `cond.Wait()`;
* `done` — finished: handled an existing session, completed a creation,
  or fell through to dropping the packet. -/
inductive SessionPhase where
  | start
  | checked
  | waiting
  | creating
  | installed
  | done
deriving DecidableEq, Repr

/-- The shared state of the NAT table for one session key, together with
the multiset of per-packet task locations and two ghost fields: how many
times the creation path has been entered (`creations`) and a fresh-id
counter for created session objects (`nextSession`).  Modelled from the
spec: the `component/nat` table itself is not among the analysed sources;
per the spec it is a keyed map (`table`) plus an atomically claimed
per-key in-progress marker (`marker`, the `"-lock"` sentinel). -/
structure NatTableState where
  table : Option Nat
  marker : Bool
  tasks : Multiset SessionPhase
  creations : Nat
  nextSession : Nat
deriving DecidableEq

/-- One atomic step of `handleUDPConn` for the fixed key.  The stepping
task's phase is written at the head of the task multiset.
* `handleHit` / `handleMiss` — the initial `handle()` lookup;
* `claimLock` — `GetOrCreateLock` finds no marker, installs it and enters
  the creation path (the ghost `creations` counter increments);
* `observeLock` — `GetOrCreateLock` finds the marker claimed; the task
  becomes a waiter;
* `createSuccess` — the creation path succeeds: `natTable.Set(key, pc)`
  installs a fresh session object (overwriting any present one);
* `releaseSuccess` — the creator's deferred `Delete(lockKey)` +
  `Broadcast` remove the marker and wake the waiters;
* `createFail` — the creation path fails: the deferred `Delete` +
  `Broadcast` run with *no* session installed;
* `wake` — a waiter wakes (only once the marker is gone) and re-runs
  `handle()`: it reuses an installed session, or drops its packet when
  the creation failed; either way it finishes. -/
inductive NatStep : NatTableState → NatTableState → Prop where
  | handleHit (sid : Nat) (mk : Bool) (ts : Multiset SessionPhase)
      (c ns : Nat) :
      NatStep ⟨some sid, mk, .start ::ₘ ts, c, ns⟩
        ⟨some sid, mk, .done ::ₘ ts, c, ns⟩
  | handleMiss (mk : Bool) (ts : Multiset SessionPhase) (c ns : Nat) :
      NatStep ⟨none, mk, .start ::ₘ ts, c, ns⟩
        ⟨none, mk, .checked ::ₘ ts, c, ns⟩
  | claimLock (tb : Option Nat) (ts : Multiset SessionPhase) (c ns : Nat) :
      NatStep ⟨tb, false, .checked ::ₘ ts, c, ns⟩
        ⟨tb, true, .creating ::ₘ ts, c + 1, ns⟩
  | observeLock (tb : Option Nat) (ts : Multiset SessionPhase) (c ns : Nat) :
      NatStep ⟨tb, true, .checked ::ₘ ts, c, ns⟩
        ⟨tb, true, .waiting ::ₘ ts, c, ns⟩
  | createSuccess (tb : Option Nat) (mk : Bool) (ts : Multiset SessionPhase)
      (c ns : Nat) :
      NatStep ⟨tb, mk, .creating ::ₘ ts, c, ns⟩
        ⟨some ns, mk, .installed ::ₘ ts, c, ns + 1⟩
  | releaseSuccess (tb : Option Nat) (mk : Bool)
      (ts : Multiset SessionPhase) (c ns : Nat) :
      NatStep ⟨tb, mk, .installed ::ₘ ts, c, ns⟩
        ⟨tb, false, .done ::ₘ ts, c, ns⟩
  | createFail (tb : Option Nat) (mk : Bool) (ts : Multiset SessionPhase)
      (c ns : Nat) :
      NatStep ⟨tb, mk, .creating ::ₘ ts, c, ns⟩
        ⟨tb, false, .done ::ₘ ts, c, ns⟩
  | wake (tb : Option Nat) (ts : Multiset SessionPhase) (c ns : Nat) :
      NatStep ⟨tb, false, .waiting ::ₘ ts, c, ns⟩
        ⟨tb, false, .done ::ₘ ts, c, ns⟩

/-- The initial state for `n` concurrent packets sharing one key: empty
table, no marker, every task about to run its first table check. -/
def natInit (n : Nat) : NatTableState :=
  ⟨none, false, Multiset.replicate n .start, 0, 0⟩

/-- States reachable by interleaving the packet tasks. -/
inductive NatReach (n : Nat) : NatTableState → Prop where
  | init : NatReach n (natInit n)
  | step {s s' : NatTableState} : NatReach n s → NatStep s s' →
      NatReach n s'

/-- The number of tasks currently inside the creation path (claimed the
marker and have not yet released it). -/
def creatorCount (s : NatTableState) : Nat :=
  Multiset.count .creating s.tasks + Multiset.count .installed s.tasks

/-- C9 (amended): in every reachable state of the session table, at most
one creation attempt is in flight for the key, and when the in-progress
marker is absent no creation is in flight at all — packets that observe
the claimed marker wait and never enter the creation path themselves,
and a failed creation releases the marker without installing a session
(`createFail` leaves the table untouched), letting woken waiters fall
through to dropping their packet.  Creation is *not* exactly-once per
key, see the counterexample. -/
theorem natTable_single_creator {n : Nat} {s : NatTableState}
    (h : NatReach n s) :
    creatorCount s ≤ 1 ∧ (s.marker = false → creatorCount s = 0) := by
  induction h with
  | init =>
    constructor
    · simp [creatorCount, natInit, Multiset.count_replicate]
    · intro _
      simp [creatorCount, natInit, Multiset.count_replicate]
  | step _ hstep ih =>
    obtain ⟨ih1, ih2⟩ := ih
    cases hstep
    case handleHit => simp_all [creatorCount, Multiset.count_cons]
    case handleMiss => simp_all [creatorCount, Multiset.count_cons]
    case claimLock => simp_all [creatorCount, Multiset.count_cons]
    case observeLock => simp_all [creatorCount, Multiset.count_cons]
    case createSuccess =>
      simp_all [creatorCount, Multiset.count_cons]
      omega
    case releaseSuccess =>
      simp_all [creatorCount, Multiset.count_cons, -Multiset.count_eq_zero]
      omega
    case createFail =>
      simp_all [creatorCount, Multiset.count_cons, -Multiset.count_eq_zero]
      omega
    case wake => simp_all [creatorCount, Multiset.count_cons]

/-- Witness for `natTable_single_creator` at the initial two-packet
state, whose reachability is discharged by the `init` constructor. -/
theorem natTable_single_creator_witness :
    creatorCount (natInit 2) ≤ 1 ∧
    ((natInit 2).marker = false → creatorCount (natInit 2) = 0) :=
  natTable_single_creator (NatReach.init)

/-- C9 counterexample: two packets for the same key can both run the
creation path.  Task B passes its `handle()` check while the table is
still empty, task A then claims the marker, creates and installs session
object 0 and releases the marker; B now finds no marker, claims it, and
runs a *second* creation that installs a different session object 1 over
the first.  The reached state records two creation-path invocations
(`creations = 2`) and a second session object (`nextSession = 2`),
refuting "exactly one invocation of the creation path" and "at most one
outbound session object ever created per key" for concurrent packets. -/
theorem natTable_double_creation_counterexample :
    NatReach 2 ⟨some 1, true, .installed ::ₘ {.done}, 2, 2⟩ ∧
    (NatTableState.creations
      ⟨some 1, true, .installed ::ₘ {.done}, 2, 2⟩) = 2 := by
  constructor
  · have h0 : NatReach 2 (natInit 2) := NatReach.init
    have e0 : natInit 2 = ⟨none, false, .start ::ₘ {.start}, 0, 0⟩ := rfl
    rw [e0] at h0
    have h1 : NatReach 2 ⟨none, false, .checked ::ₘ {.start}, 0, 0⟩ :=
      NatReach.step h0 (NatStep.handleMiss false {.start} 0 0)
    have e1 : (SessionPhase.checked ::ₘ {SessionPhase.start}) =
        SessionPhase.start ::ₘ {SessionPhase.checked} :=
      Multiset.cons_swap SessionPhase.checked SessionPhase.start 0
    rw [e1] at h1
    have h2 : NatReach 2 ⟨none, false, .checked ::ₘ {.checked}, 0, 0⟩ :=
      NatReach.step h1 (NatStep.handleMiss false {.checked} 0 0)
    have h3 : NatReach 2 ⟨none, true, .creating ::ₘ {.checked}, 1, 0⟩ :=
      NatReach.step h2 (NatStep.claimLock none {.checked} 0 0)
    have h4 : NatReach 2 ⟨some 0, true, .installed ::ₘ {.checked}, 1, 1⟩ :=
      NatReach.step h3 (NatStep.createSuccess none true {.checked} 1 0)
    have h5 : NatReach 2 ⟨some 0, false, .done ::ₘ {.checked}, 1, 1⟩ :=
      NatReach.step h4 (NatStep.releaseSuccess (some 0) true {.checked} 1 1)
    have e5 : (SessionPhase.done ::ₘ {SessionPhase.checked}) =
        SessionPhase.checked ::ₘ {SessionPhase.done} :=
      Multiset.cons_swap SessionPhase.done SessionPhase.checked 0
    rw [e5] at h5
    have h6 : NatReach 2 ⟨some 0, true, .creating ::ₘ {.done}, 2, 1⟩ :=
      NatReach.step h5 (NatStep.claimLock (some 0) {.done} 1 1)
    exact NatReach.step h6 (NatStep.createSuccess (some 0) true {.done} 2 1)
  · rfl

/-- Reference-identity model of message objects: each live `*dns.Msg` is
a numeric reference, and `Msg.Copy()` (a deep copy in the message
library) allocates a fresh reference.  `next` is the allocation counter:
every reference allocated so far is `< next`. -/
def msgCopyRef (next : Nat) : Nat × Nat := (next, next + 1)

/-- The references produced by one miss-path execution of
`exchangeWithoutCache` for the winning result object `retRef`:
the reference stored in the cache, the reference returned to the winning
caller, and the references returned to the `k` coalesced duplicate
callers. -/
structure MissRefs where
  cacheRef : Nat
  winnerRef : Nat
  sharedRefs : List Nat
deriving DecidableEq, Repr

/-- `exchangeWithoutCache` miss path, at the reference level: the single
winning execution stores `msg.Copy()` in the cache (`putMsgToCache`); the
winning caller (`shared = false`) returns the result object itself; each
of the `k` duplicate callers collapsed onto the same flight
(`shared = true`) returns its own `msg.Copy()`. -/
def exchangeMissRefs (retRef : Nat) (k : Nat) (next : Nat) :
    MissRefs × Nat :=
  let (stored, n1) := msgCopyRef next
  (⟨stored, retRef, (List.range k).map (fun i => n1 + i)⟩, n1 + k)

/-- `ExchangeContext` hit path, at the reference level: the caller
receives `cacheM.Copy()`, never the cached object itself. -/
def exchangeHitRef (next : Nat) : Nat × Nat := msgCopyRef next

/-- C10: no caller ever receives a reference to the cached message
object.  On a hit the returned copy differs from the cached reference;
on a miss the stored cache copy differs from the winner's returned
object and from every duplicate caller's copy, and all returned
references are pairwise distinct — so mutating any returned response
cannot alter the cached entry or another caller's response. -/
theorem exchange_returns_private_copies (next cachedRef retRef k : Nat) :
    (cachedRef < next → (exchangeHitRef next).1 ≠ cachedRef) ∧
    (retRef < next →
      (exchangeMissRefs retRef k next).1.cacheRef ≠
        (exchangeMissRefs retRef k next).1.winnerRef ∧
      (exchangeMissRefs retRef k next).1.cacheRef ∉
        (exchangeMissRefs retRef k next).1.sharedRefs ∧
      (exchangeMissRefs retRef k next).1.winnerRef ∉
        (exchangeMissRefs retRef k next).1.sharedRefs ∧
      ((exchangeMissRefs retRef k next).1.sharedRefs).Nodup) := by
  constructor
  · intro hlt
    simp only [exchangeHitRef, msgCopyRef]
    omega
  · intro hlt
    refine ⟨?_, ?_, ?_, ?_⟩
    · simp only [exchangeMissRefs, msgCopyRef]
      omega
    · simp only [exchangeMissRefs, msgCopyRef, List.mem_map,
        List.mem_range]
      rintro ⟨i, _, hi⟩
      omega
    · simp only [exchangeMissRefs, msgCopyRef, List.mem_map,
        List.mem_range]
      rintro ⟨i, _, hi⟩
      omega
    · simp only [exchangeMissRefs, msgCopyRef]
      refine List.Nodup.map ?_ (List.nodup_range k)
      intro a b hab
      have hab2 : next + 1 + a = next + 1 + b := hab
      omega

/-- Witness for `exchange_returns_private_copies` with three duplicate
callers and allocation counter 5. -/
theorem exchange_returns_private_copies_witness :
    ((exchangeHitRef 5).1 ≠ 3) ∧
    ((exchangeMissRefs 2 3 5).1.cacheRef ≠
        (exchangeMissRefs 2 3 5).1.winnerRef ∧
      (exchangeMissRefs 2 3 5).1.cacheRef ∉
        (exchangeMissRefs 2 3 5).1.sharedRefs ∧
      (exchangeMissRefs 2 3 5).1.winnerRef ∉
        (exchangeMissRefs 2 3 5).1.sharedRefs ∧
      ((exchangeMissRefs 2 3 5).1.sharedRefs).Nodup) :=
  ⟨(exchange_returns_private_copies 5 3 2 3).1 (by decide),
   (exchange_returns_private_copies 5 3 2 3).2 (by decide)⟩

end Clash
